import Mathlib

/-!
Shallow embedding of the deduplication engine of this repository
(src/src/processing/deduplicator.py, class Deduplicator).

Modelling conventions, matched against the source line by line:

* Python float similarity scores are modelled as exact rationals.  Every
  similarity the image path computes has the form 1 - hamming/length, an
  exact dyadic value, so the rational model is faithful.
* The two OrderedDict caches are modelled as association lists in insertion
  order.  Assignment to a key already present updates the value in place
  keeping the position; assignment to a fresh key appends at the newest end.
  popitem with last False removes the oldest entry and raises KeyError on an
  empty dict; exceptions are modelled with Except Unit, and the bare
  try/except handlers of the Python code become matches on the Except value.
* calculate_image_hash, calculate_perceptual_hash rest on OpenCV; the text
  helpers rest on scikit-learn and the builtin string hash.  They enter the
  model as function parameters: imgHash and percHash stand for the two image
  hash functions, pure and deterministic per the code; textSim stands for
  calculate_text_similarity, which catches its own exceptions and returns
  0.0, hence is total; textHash stands for the composite of the builtin hash
  and str applied in is_duplicate_text.
* The worker pool of the batch operations is abstracted by a parameter that
  yields the collected future results for the submitted items, and may fail,
  covering pool-level failures caught by the outer try/except of the batch
  methods.  A separate explicit two-task schedule model captures one legal
  concurrent execution of the pool.
-/

namespace Dedup

/-- Hamming distance of two hash strings, deduplicator.py line 160: count the
positions where the zipped characters differ. -/
def hammingDistance (hash1 hash2 : String) : Nat :=
  ((hash1.data.zip hash2.data).filter (fun p => decide (p.1 ≠ p.2))).length

/-- calculate_image_similarity, deduplicator.py lines 145-165: 0.0 when the
lengths differ, otherwise 1 - hamming/length.  When both strings are empty
the Python division by the length raises ZeroDivisionError, modelled as an
error value. -/
def calculate_image_similarity (hash1 hash2 : String) : Except Unit ℚ :=
  if hash1.length ≠ hash2.length then Except.ok 0
  else if hash1.length = 0 then Except.error ()
  else Except.ok (1 - (hammingDistance hash1 hash2 : ℚ) / (hash1.length : ℚ))

/-- Assignment cache[k] = v on an OrderedDict: update in place when the key
is present, otherwise append at the newest end. -/
def odInsert {α : Type} (cache : List (String × α)) (k : String) (v : α) :
    List (String × α) :=
  if cache.any (fun p => p.1 == k) then
    cache.map (fun p => if p.1 == k then (k, v) else p)
  else cache ++ [(k, v)]

/-- popitem with last False on an OrderedDict: remove the oldest entry,
raising KeyError on an empty dict. -/
def odPopFirst {α : Type} (cache : List (String × α)) :
    Except Unit (List (String × α)) :=
  match cache with
  | [] => Except.error ()
  | _ :: rest => Except.ok rest

/-- The Deduplicator state, deduplicator.py lines 26-50: the similarity
threshold, the maximum cache size, and the two OrderedDict caches.  Img is
the type of image payloads (numpy arrays in the source). -/
structure Deduplicator (Img : Type) where
  similarity_threshold : ℚ
  cache_size : Nat
  image_cache : List (String × Img)
  text_cache : List (String × String)
deriving DecidableEq

/-- The cache scan loop of _process_image, deduplicator.py lines 170-173:
compare the candidate hash against every cached hash oldest first and stop at
the first similarity at or above the threshold. -/
def imageScan {Img : Type} (threshold : ℚ) (image_hash : String) :
    List (String × Img) → Except Unit Bool
  | [] => Except.ok false
  | (cached_hash, _) :: rest =>
    match calculate_image_similarity image_hash cached_hash with
    | Except.error e => Except.error e
    | Except.ok similarity =>
      if threshold ≤ similarity then Except.ok true
      else imageScan threshold image_hash rest

/-- The method _process_image, deduplicator.py lines 167-180: scan the image
cache; on a hit report a duplicate leaving the state unchanged; otherwise
evict the oldest entry when at capacity and insert the new pair of hash and
image. -/
def process_image {Img : Type} (d : Deduplicator Img) (image : Img)
    (image_hash : String) : Except Unit (Bool × Deduplicator Img) :=
  match imageScan d.similarity_threshold image_hash d.image_cache with
  | Except.error e => Except.error e
  | Except.ok true => Except.ok (true, d)
  | Except.ok false =>
    match (if d.cache_size ≤ d.image_cache.length then odPopFirst d.image_cache
           else Except.ok d.image_cache) with
    | Except.error e => Except.error e
    | Except.ok cache =>
      Except.ok (false, { d with image_cache := odInsert cache image_hash image })

/-- is_duplicate_image, deduplicator.py lines 182-202: compute the content
hash and the perceptual hash, run _process_image, and on any exception report
False leaving the state as it stands. -/
def is_duplicate_image {Img : Type} (imgHash percHash : Img → String)
    (d : Deduplicator Img) (image : Img) : Bool × Deduplicator Img :=
  let image_hash := imgHash image
  let _perceptual_hash := percHash image
  match process_image d image image_hash with
  | Except.ok r => r
  | Except.error _ => (false, d)

/-- The cache scan loop of _process_text, deduplicator.py lines 207-210: the
candidate text is compared with every cached payload text oldest first. -/
def textScan (textSim : String → String → ℚ) (threshold : ℚ) (text : String) :
    List (String × String) → Bool
  | [] => false
  | (_, cached_text) :: rest =>
    if threshold ≤ textSim text cached_text then true
    else textScan textSim threshold text rest

/-- The method _process_text, deduplicator.py lines 204-217: scan the text
cache; on a hit report a duplicate; otherwise evict the oldest entry when at
capacity and insert the new pair of hash and text. -/
def process_text {Img : Type} (textSim : String → String → ℚ)
    (d : Deduplicator Img) (text : String) (text_hash : String) :
    Except Unit (Bool × Deduplicator Img) :=
  if textScan textSim d.similarity_threshold text d.text_cache then
    Except.ok (true, d)
  else
    match (if d.cache_size ≤ d.text_cache.length then odPopFirst d.text_cache
           else Except.ok d.text_cache) with
    | Except.error e => Except.error e
    | Except.ok cache =>
      Except.ok (false, { d with text_cache := odInsert cache text_hash text })

/-- is_duplicate_text, deduplicator.py lines 219-238: compute the text hash,
run _process_text, and on any exception report False leaving the state as it
stands. -/
def is_duplicate_text {Img : Type} (textSim : String → String → ℚ)
    (textHash : String → String) (d : Deduplicator Img) (text : String) :
    Bool × Deduplicator Img :=
  let text_hash := textHash text
  match process_text textSim d text text_hash with
  | Except.ok r => r
  | Except.error _ => (false, d)

/-- The collection loop of the batch methods, deduplicator.py lines 259-262
and 289-292: keep, in submission order, every item whose future reported
False. -/
def collectUnique {α : Type} (pairs : List (α × Bool)) : List α :=
  (pairs.filter (fun p => !p.2)).map Prod.fst

/-- deduplicate_images, deduplicator.py lines 240-268.  poolResults abstracts
submitting every image to the thread pool and collecting the future results
in submission order; a failing poolResults models an exception inside the
try block, answered by returning the input list unchanged. -/
def deduplicate_images {Img : Type}
    (poolResults : List Img → Except Unit (List Bool)) (images : List Img) :
    List Img :=
  match poolResults images with
  | Except.ok flags => collectUnique (images.zip flags)
  | Except.error _ => images

/-- deduplicate_texts, deduplicator.py lines 270-298, same shape as
deduplicate_images. -/
def deduplicate_texts (poolResults : List String → Except Unit (List Bool))
    (texts : List String) : List String :=
  match poolResults texts with
  | Except.ok flags => collectUnique (texts.zip flags)
  | Except.error _ => texts

/-- One single-item dedup operation, either kind, with its hash and
similarity functions. -/
inductive DedupOp (Img : Type) where
  | imageOp (imgHash percHash : Img → String) (image : Img)
  | textOp (textSim : String → String → ℚ) (textHash : String → String)
      (text : String)

/-- Run one dedup operation for its state effect. -/
def runOp {Img : Type} (d : Deduplicator Img) : DedupOp Img → Deduplicator Img
  | DedupOp.imageOp ih ph img => (is_duplicate_image ih ph d img).2
  | DedupOp.textOp ts th txt => (is_duplicate_text ts th d txt).2

/-- Run a sequence of dedup operations left to right. -/
def runOps {Img : Type} (d : Deduplicator Img) (ops : List (DedupOp Img)) :
    Deduplicator Img :=
  ops.foldl runOp d

/-- Present a list of texts to is_duplicate_text one after the other,
keeping the final state. -/
def feedTexts {Img : Type} (textSim : String → String → ℚ)
    (textHash : String → String) (d : Deduplicator Img) :
    List String → Deduplicator Img
  | [] => d
  | t :: ts => feedTexts textSim textHash (is_duplicate_text textSim textHash d t).2 ts

/-- The insertion phase of _process_text alone, deduplicator.py lines
212-215, with the per-item handler of is_duplicate_text around it: evict when
at capacity, then insert; on the KeyError of an empty eviction leave the
state unchanged. -/
def textInsertPhase {Img : Type} (d : Deduplicator Img)
    (text text_hash : String) : Deduplicator Img :=
  match (if d.cache_size ≤ d.text_cache.length then odPopFirst d.text_cache
         else Except.ok d.text_cache) with
  | Except.error _ => d
  | Except.ok cache => { d with text_cache := odInsert cache text_hash text }

/-- deduplicate_texts on a two-element batch when the pool happens to run the
two submitted is_duplicate_text tasks one after the other: the sequential
schedule.  Gives the two verdicts and the final state. -/
def twoTextsSequential {Img : Type} (textSim : String → String → ℚ)
    (textHash : String → String) (d : Deduplicator Img) (t1 t2 : String) :
    Bool × Bool × Deduplicator Img :=
  let r1 := is_duplicate_text textSim textHash d t1
  let r2 := is_duplicate_text textSim textHash r1.2 t2
  (r1.1, r2.1, r2.2)

/-- deduplicate_texts on a two-element batch under another legal schedule of
the code's ThreadPoolExecutor with at least two workers: the two submitted
is_duplicate_text tasks run concurrently, and both perform their cache scan
of deduplicator.py lines 207-210 before either performs the eviction and
insertion of lines 212-215.  The source submits the whole is_duplicate_text
call to the pool (lines 285-287), so this interleaving is reachable. -/
def twoTextsScansFirst {Img : Type} (textSim : String → String → ℚ)
    (textHash : String → String) (d : Deduplicator Img) (t1 t2 : String) :
    Bool × Bool × Deduplicator Img :=
  let s1 := textScan textSim d.similarity_threshold t1 d.text_cache
  let s2 := textScan textSim d.similarity_threshold t2 d.text_cache
  let d1 := if s1 then d else textInsertPhase d t1 (textHash t1)
  let d2 := if s2 then d1 else textInsertPhase d1 t2 (textHash t2)
  (s1, s2, d2)

/-- Refinement variant named by the claim on the unused perceptual hash:
is_duplicate_image with the perceptual hash computation skipped. -/
def is_duplicate_image_skip_perceptual {Img : Type} (imgHash : Img → String)
    (d : Deduplicator Img) (image : Img) : Bool × Deduplicator Img :=
  let image_hash := imgHash image
  match process_image d image image_hash with
  | Except.ok r => r
  | Except.error _ => (false, d)

/-- Concrete text similarity used by witnesses: 1 for equal strings, else 0. -/
def simEq : String → String → ℚ := fun a b => if a = b then 1 else 0

/-- Concrete text hash used by witnesses: the identity function. -/
def idHash : String → String := fun s => s

/-! Helper lemmas about the similarity function and the cache scans. -/

lemma calculate_image_similarity_isOk (hash1 hash2 : String)
    (h : hash1.length ≠ 0) :
    ∃ s : ℚ, calculate_image_similarity hash1 hash2 = Except.ok s := by
  unfold calculate_image_similarity
  by_cases hl : hash1.length ≠ hash2.length
  · rw [if_pos hl]
    exact ⟨0, rfl⟩
  · rw [if_neg hl, if_neg h]
    exact ⟨_, rfl⟩

lemma hammingDistance_self (s : String) : hammingDistance s s = 0 := by
  unfold hammingDistance
  induction s.data with
  | nil => simp
  | cons a l ih => simpa using ih

lemma calculate_image_similarity_self (s : String) (h : s.length ≠ 0) :
    calculate_image_similarity s s = Except.ok 1 := by
  unfold calculate_image_similarity
  simp [h, hammingDistance_self]

lemma textScan_true_iff (textSim : String → String → ℚ) (t : ℚ) (x : String)
    (cache : List (String × String)) :
    textScan textSim t x cache = true ↔ ∃ p ∈ cache, t ≤ textSim x p.2 := by
  induction cache with
  | nil => simp [textScan]
  | cons p rest ih =>
    obtain ⟨k, c⟩ := p
    by_cases h : t ≤ textSim x c
    · constructor
      · intro _
        exact ⟨(k, c), List.mem_cons_self _ _, h⟩
      · intro _
        simp [textScan, if_pos h]
    · simp only [textScan, if_neg h, ih, List.mem_cons]
      constructor
      · rintro ⟨p, hp, hs⟩
        exact ⟨p, Or.inr hp, hs⟩
      · rintro ⟨p, hp | hp, hs⟩
        · subst hp
          exact absurd hs h
        · exact ⟨p, hp, hs⟩

lemma textScan_eq_false (textSim : String → String → ℚ) (t : ℚ) (x : String)
    (cache : List (String × String))
    (h : ∀ p ∈ cache, textSim x p.2 < t) :
    textScan textSim t x cache = false := by
  rw [Bool.eq_false_iff]
  intro htrue
  obtain ⟨p, hp, hs⟩ := (textScan_true_iff textSim t x cache).mp htrue
  exact absurd hs (not_le.mpr (h p hp))

lemma imageScan_isOk {Img : Type} (t : ℚ) (image_hash : String)
    (cache : List (String × Img)) (h : image_hash.length ≠ 0) :
    ∃ b : Bool, imageScan t image_hash cache = Except.ok b := by
  induction cache with
  | nil => exact ⟨false, rfl⟩
  | cons p rest ih =>
    obtain ⟨k, v⟩ := p
    obtain ⟨s, hs⟩ := calculate_image_similarity_isOk image_hash k h
    by_cases hts : t ≤ s
    · exact ⟨true, by simp [imageScan, hs, hts]⟩
    · obtain ⟨b, hb⟩ := ih
      exact ⟨b, by simp [imageScan, hs, hts, hb]⟩

lemma imageScan_true_iff {Img : Type} (t : ℚ) (image_hash : String)
    (cache : List (String × Img)) (h : image_hash.length ≠ 0) :
    imageScan t image_hash cache = Except.ok true ↔
      ∃ p ∈ cache, ∃ s : ℚ,
        calculate_image_similarity image_hash p.1 = Except.ok s ∧ t ≤ s := by
  induction cache with
  | nil => simp [imageScan]
  | cons p rest ih =>
    obtain ⟨k, v⟩ := p
    obtain ⟨s, hs⟩ := calculate_image_similarity_isOk image_hash k h
    by_cases hts : t ≤ s
    · constructor
      · intro _
        exact ⟨(k, v), List.mem_cons_self _ _, s, hs, hts⟩
      · intro _
        simp [imageScan, hs, hts]
    · have hstep : imageScan t image_hash ((k, v) :: rest) =
          imageScan t image_hash rest := by
        simp [imageScan, hs, hts]
      rw [hstep, ih]
      simp only [List.mem_cons]
      constructor
      · rintro ⟨p, hp, s', hs', hts'⟩
        exact ⟨p, Or.inr hp, s', hs', hts'⟩
      · rintro ⟨p, hp | hp, s', hs', hts'⟩
        · subst hp
          rw [hs] at hs'
          cases hs'
          exact absurd hts' hts
        · exact ⟨p, hp, s', hs', hts'⟩

lemma imageScan_mono {Img : Type} (t t' : ℚ) (image_hash : String)
    (cache : List (String × Img)) (hle : t ≤ t')
    (h : imageScan t' image_hash cache = Except.ok true) :
    imageScan t image_hash cache = Except.ok true := by
  induction cache with
  | nil => simp [imageScan] at h
  | cons p rest ih =>
    obtain ⟨k, v⟩ := p
    cases hs : calculate_image_similarity image_hash k with
    | error e => simp [imageScan, hs] at h
    | ok s =>
      by_cases hts' : t' ≤ s
      · have hts : t ≤ s := le_trans hle hts'
        simp [imageScan, hs, hts]
      · have h' : imageScan t' image_hash rest = Except.ok true := by
          simpa [imageScan, hs, hts'] using h
        by_cases hts : t ≤ s
        · simp [imageScan, hs, hts]
        · simpa [imageScan, hs, hts] using ih h'

/-! Helper lemmas about insertion, eviction and verdicts. -/

lemma odInsert_of_not_mem {α : Type} (cache : List (String × α)) (k : String)
    (v : α) (h : ∀ p ∈ cache, p.1 ≠ k) :
    odInsert cache k v = cache ++ [(k, v)] := by
  have hany : cache.any (fun p => p.1 == k) = false := by
    rw [List.any_eq_false]
    intro p hp
    simpa using h p hp
  simp [odInsert, hany]

lemma odInsert_length_le {α : Type} (cache : List (String × α)) (k : String)
    (v : α) : (odInsert cache k v).length ≤ cache.length + 1 := by
  unfold odInsert
  by_cases h : cache.any (fun p => p.1 == k)
  · simp [h]
  · simp [h]

lemma is_duplicate_image_fst_true_iff {Img : Type}
    (imgHash percHash : Img → String) (d : Deduplicator Img) (image : Img) :
    (is_duplicate_image imgHash percHash d image).1 = true ↔
      imageScan d.similarity_threshold (imgHash image) d.image_cache =
        Except.ok true := by
  cases hscan : imageScan d.similarity_threshold (imgHash image) d.image_cache with
  | error e => simp [is_duplicate_image, process_image, hscan]
  | ok b =>
    cases b with
    | true => simp [is_duplicate_image, process_image, hscan]
    | false =>
      cases hpop : (if d.cache_size ≤ d.image_cache.length then
          odPopFirst d.image_cache else Except.ok d.image_cache) with
      | error e => simp [is_duplicate_image, process_image, hscan, hpop]
      | ok cache => simp [is_duplicate_image, process_image, hscan, hpop]

lemma is_duplicate_text_fst_true_iff {Img : Type}
    (textSim : String → String → ℚ) (textHash : String → String)
    (d : Deduplicator Img) (text : String) :
    (is_duplicate_text textSim textHash d text).1 = true ↔
      textScan textSim d.similarity_threshold text d.text_cache = true := by
  cases hscan : textScan textSim d.similarity_threshold text d.text_cache with
  | true => simp [is_duplicate_text, process_text, hscan]
  | false =>
    cases hpop : (if d.cache_size ≤ d.text_cache.length then
        odPopFirst d.text_cache else Except.ok d.text_cache) with
    | error e => simp [is_duplicate_text, process_text, hscan, hpop]
    | ok cache => simp [is_duplicate_text, process_text, hscan, hpop]

lemma is_duplicate_image_snd_cases {Img : Type}
    (imgHash percHash : Img → String) (d : Deduplicator Img) (image : Img) :
    (is_duplicate_image imgHash percHash d image).2 = d ∨
    ((is_duplicate_image imgHash percHash d image).1 = false ∧
     (is_duplicate_image imgHash percHash d image).2 =
       { d with image_cache :=
                  odInsert
                    (if d.cache_size ≤ d.image_cache.length then
                      d.image_cache.tail else d.image_cache)
                    (imgHash image) image }) := by
  cases hscan : imageScan d.similarity_threshold (imgHash image) d.image_cache with
  | error e =>
    left
    simp [is_duplicate_image, process_image, hscan]
  | ok b =>
    cases b with
    | true =>
      left
      simp [is_duplicate_image, process_image, hscan]
    | false =>
      by_cases hfull : d.cache_size ≤ d.image_cache.length
      · by_cases hnil : d.image_cache = []
        · left
          have hpop : (if d.cache_size ≤ d.image_cache.length then
              odPopFirst d.image_cache else Except.ok d.image_cache) =
              Except.error () := by
            rw [if_pos hfull, hnil]
            rfl
          simp [is_duplicate_image, process_image, hscan, hpop]
        · right
          have hpop : (if d.cache_size ≤ d.image_cache.length then
              odPopFirst d.image_cache else Except.ok d.image_cache) =
              Except.ok d.image_cache.tail := by
            rw [if_pos hfull]
            cases hcc : d.image_cache with
            | nil => exact absurd hcc hnil
            | cons q rest => rfl
          have htail : (if d.cache_size ≤ d.image_cache.length then
              d.image_cache.tail else d.image_cache) = d.image_cache.tail :=
            if_pos hfull
          rw [htail]
          constructor <;> simp [is_duplicate_image, process_image, hscan, hpop]
      · right
        have hpop : (if d.cache_size ≤ d.image_cache.length then
            odPopFirst d.image_cache else Except.ok d.image_cache) =
            Except.ok d.image_cache := if_neg hfull
        have htail : (if d.cache_size ≤ d.image_cache.length then
            d.image_cache.tail else d.image_cache) = d.image_cache :=
          if_neg hfull
        rw [htail]
        constructor <;> simp [is_duplicate_image, process_image, hscan, hpop]

lemma is_duplicate_text_snd_cases {Img : Type}
    (textSim : String → String → ℚ) (textHash : String → String)
    (d : Deduplicator Img) (text : String) :
    (is_duplicate_text textSim textHash d text).2 = d ∨
    ((is_duplicate_text textSim textHash d text).1 = false ∧
     (is_duplicate_text textSim textHash d text).2 =
       { d with text_cache :=
                  odInsert
                    (if d.cache_size ≤ d.text_cache.length then
                      d.text_cache.tail else d.text_cache)
                    (textHash text) text }) := by
  cases hscan : textScan textSim d.similarity_threshold text d.text_cache with
  | true =>
    left
    simp [is_duplicate_text, process_text, hscan]
  | false =>
    by_cases hfull : d.cache_size ≤ d.text_cache.length
    · by_cases hnil : d.text_cache = []
      · left
        have hpop : (if d.cache_size ≤ d.text_cache.length then
            odPopFirst d.text_cache else Except.ok d.text_cache) =
            Except.error () := by
          rw [if_pos hfull, hnil]
          rfl
        simp [is_duplicate_text, process_text, hscan, hpop]
      · right
        have hpop : (if d.cache_size ≤ d.text_cache.length then
            odPopFirst d.text_cache else Except.ok d.text_cache) =
            Except.ok d.text_cache.tail := by
          rw [if_pos hfull]
          cases hcc : d.text_cache with
          | nil => exact absurd hcc hnil
          | cons q rest => rfl
        have htail : (if d.cache_size ≤ d.text_cache.length then
            d.text_cache.tail else d.text_cache) = d.text_cache.tail :=
          if_pos hfull
        rw [htail]
        constructor <;> simp [is_duplicate_text, process_text, hscan, hpop]
    · right
      have hpop : (if d.cache_size ≤ d.text_cache.length then
          odPopFirst d.text_cache else Except.ok d.text_cache) =
          Except.ok d.text_cache := if_neg hfull
      have htail : (if d.cache_size ≤ d.text_cache.length then
          d.text_cache.tail else d.text_cache) = d.text_cache :=
        if_neg hfull
      rw [htail]
      constructor <;> simp [is_duplicate_text, process_text, hscan, hpop]

lemma odInsert_evict_length_le {α : Type} (cache : List (String × α))
    (k : String) (v : α) (cap : Nat) (hcap : 0 < cap)
    (hle : cache.length ≤ cap) :
    (odInsert (if cap ≤ cache.length then cache.tail else cache) k v).length
      ≤ cap := by
  by_cases h : cap ≤ cache.length
  · have hlen : cache.length = cap := le_antisymm hle h
    have hins := odInsert_length_le cache.tail k v
    have htail : cache.tail.length = cache.length - 1 := List.length_tail _
    rw [if_pos h]
    omega
  · have hins := odInsert_length_le cache k v
    rw [if_neg h]
    omega

lemma runOp_bound {Img : Type} (d : Deduplicator Img) (op : DedupOp Img)
    (hcap : 0 < d.cache_size)
    (h1 : d.image_cache.length ≤ d.cache_size)
    (h2 : d.text_cache.length ≤ d.cache_size) :
    (runOp d op).cache_size = d.cache_size ∧
    (runOp d op).image_cache.length ≤ d.cache_size ∧
    (runOp d op).text_cache.length ≤ d.cache_size := by
  cases op with
  | imageOp ih ph img =>
    have hr : runOp d (DedupOp.imageOp ih ph img) =
        (is_duplicate_image ih ph d img).2 := rfl
    rcases is_duplicate_image_snd_cases ih ph d img with hsnd | ⟨-, hsnd⟩
    · rw [hr, hsnd]
      exact ⟨rfl, h1, h2⟩
    · rw [hr, hsnd]
      exact ⟨rfl, odInsert_evict_length_le _ _ _ _ hcap h1, h2⟩
  | textOp ts th txt =>
    have hr : runOp d (DedupOp.textOp ts th txt) =
        (is_duplicate_text ts th d txt).2 := rfl
    rcases is_duplicate_text_snd_cases ts th d txt with hsnd | ⟨-, hsnd⟩
    · rw [hr, hsnd]
      exact ⟨rfl, h1, h2⟩
    · rw [hr, hsnd]
      exact ⟨rfl, h1, odInsert_evict_length_le _ _ _ _ hcap h2⟩

lemma runOps_bound {Img : Type} (ops : List (DedupOp Img))
    (d : Deduplicator Img) (hcap : 0 < d.cache_size)
    (h1 : d.image_cache.length ≤ d.cache_size)
    (h2 : d.text_cache.length ≤ d.cache_size) :
    (runOps d ops).image_cache.length ≤ d.cache_size ∧
    (runOps d ops).text_cache.length ≤ d.cache_size := by
  induction ops generalizing d with
  | nil => exact ⟨h1, h2⟩
  | cons op ops ih =>
    obtain ⟨hc, hi, ht⟩ := runOp_bound d op hcap h1 h2
    have hstep : runOps d (op :: ops) = runOps (runOp d op) ops := by
      simp [runOps]
    obtain ⟨hi', ht'⟩ := ih (runOp d op) (by rw [hc]; exact hcap)
      (by rw [hc]; exact hi) (by rw [hc]; exact ht)
    rw [hc] at hi' ht'
    rw [hstep]
    exact ⟨hi', ht'⟩

/-- Feeding a run of pairwise dissimilar, fresh-keyed texts into
is_duplicate_text one by one keeps, of the stream of entries old cache then
new items, exactly the newest cache_size many. -/
lemma feedTexts_spec {Img : Type} (textSim : String → String → ℚ)
    (textHash : String → String) :
    ∀ (items : List String) (d : Deduplicator Img),
      0 < d.cache_size →
      d.text_cache.length ≤ d.cache_size →
      (∀ x ∈ items, ∀ p ∈ d.text_cache, textSim x p.2 < d.similarity_threshold) →
      items.Pairwise (fun a b => textSim b a < d.similarity_threshold) →
      (∀ x ∈ items, textHash x ∉ d.text_cache.map Prod.fst) →
      (items.map textHash).Nodup →
      feedTexts textSim textHash d items =
        { d with text_cache :=
                   List.drop (d.text_cache.length + items.length - d.cache_size)
                     (d.text_cache ++ items.map (fun y => (textHash y, y))) }
  | [], d, hcap, hlen, _, _, _, _ => by
    have hz : d.text_cache.length - d.cache_size = 0 := by omega
    simp [feedTexts, hz]
  | x :: xs, d, hcap, hlen, hdisC, hdisI, hkeysC, hkeysI => by
    have hscan : textScan textSim d.similarity_threshold x d.text_cache = false :=
      textScan_eq_false _ _ _ _
        (fun p hp => hdisC x (List.mem_cons_self _ _) p hp)
    have hxfresh : ∀ p ∈ d.text_cache, p.1 ≠ textHash x := by
      intro p hp he
      exact hkeysC x (List.mem_cons_self _ _) (List.mem_map.mpr ⟨p, hp, he⟩)
    obtain ⟨hRx, hPxs⟩ := List.pairwise_cons.mp hdisI
    obtain ⟨hhx, hhxs⟩ := List.nodup_cons.mp hkeysI
    have hfeed : feedTexts textSim textHash d (x :: xs) =
        feedTexts textSim textHash (is_duplicate_text textSim textHash d x).2 xs :=
      rfl
    by_cases hfull : d.cache_size ≤ d.text_cache.length
    · have hlen_eq : d.text_cache.length = d.cache_size := le_antisymm hlen hfull
      have hnil : d.text_cache ≠ [] := by
        intro h0
        rw [h0] at hlen_eq
        simp at hlen_eq
        omega
      obtain ⟨q, rest, hc⟩ : ∃ q rest, d.text_cache = q :: rest := by
        cases hcc : d.text_cache with
        | nil => exact absurd hcc hnil
        | cons q rest => exact ⟨q, rest, rfl⟩
      have hrest_len : rest.length + 1 = d.cache_size := by
        rw [hc] at hlen_eq
        simpa using hlen_eq
      have hpop : (if d.cache_size ≤ d.text_cache.length then
          odPopFirst d.text_cache else Except.ok d.text_cache) =
          Except.ok rest := by
        rw [if_pos hfull, hc]
        rfl
      have hins : odInsert rest (textHash x) x = rest ++ [(textHash x, x)] :=
        odInsert_of_not_mem _ _ _
          (fun p hp => hxfresh p (by rw [hc]; exact List.mem_cons_of_mem _ hp))
      have hstep : (is_duplicate_text textSim textHash d x).2 =
          { d with text_cache := rest ++ [(textHash x, x)] } := by
        simp [is_duplicate_text, process_text, hscan, hpop, hins]
      have hrec := feedTexts_spec textSim textHash xs
        { d with text_cache := rest ++ [(textHash x, x)] }
        hcap
        (by
          simp only [List.length_append, List.length_cons, List.length_nil]
          omega)
        (by
          intro y hy p hp
          rcases List.mem_append.mp hp with hp | hp
          · exact hdisC y (List.mem_cons_of_mem _ hy) p
              (by rw [hc]; exact List.mem_cons_of_mem _ hp)
          · have hpx : p = (textHash x, x) := by simpa using hp
            rw [hpx]
            exact hRx y hy)
        hPxs
        (by
          intro y hy hmem
          have hmem' : textHash y ∈ rest.map Prod.fst ∨ textHash y = textHash x := by
            simpa using hmem
          rcases hmem' with hmem' | hmem'
          · apply hkeysC y (List.mem_cons_of_mem _ hy)
            rw [hc]
            simp only [List.map_cons, List.mem_cons]
            exact Or.inr hmem'
          · apply hhx
            rw [← hmem']
            exact List.mem_map_of_mem textHash hy)
        hhxs
      rw [hfeed, hstep, hrec]
      dsimp only
      have hn1 : (rest ++ [(textHash x, x)]).length + xs.length - d.cache_size =
          xs.length := by
        simp only [List.length_append, List.length_cons, List.length_nil]
        omega
      have hn2 : d.text_cache.length + (x :: xs).length - d.cache_size =
          xs.length + 1 := by
        rw [hc]
        simp only [List.length_cons]
        omega
      rw [hn1, hn2, hc, List.map_cons, List.cons_append, List.drop_succ_cons,
        List.append_assoc, List.singleton_append]
    · have hpop : (if d.cache_size ≤ d.text_cache.length then
          odPopFirst d.text_cache else Except.ok d.text_cache) =
          Except.ok d.text_cache := if_neg hfull
      have hins : odInsert d.text_cache (textHash x) x =
          d.text_cache ++ [(textHash x, x)] :=
        odInsert_of_not_mem _ _ _ hxfresh
      have hstep : (is_duplicate_text textSim textHash d x).2 =
          { d with text_cache := d.text_cache ++ [(textHash x, x)] } := by
        simp [is_duplicate_text, process_text, hscan, hpop, hins]
      have hrec := feedTexts_spec textSim textHash xs
        { d with text_cache := d.text_cache ++ [(textHash x, x)] }
        hcap
        (by
          simp only [List.length_append, List.length_cons, List.length_nil]
          omega)
        (by
          intro y hy p hp
          rcases List.mem_append.mp hp with hp | hp
          · exact hdisC y (List.mem_cons_of_mem _ hy) p hp
          · have hpx : p = (textHash x, x) := by simpa using hp
            rw [hpx]
            exact hRx y hy)
        hPxs
        (by
          intro y hy hmem
          have hmem' : textHash y ∈ d.text_cache.map Prod.fst ∨
              textHash y = textHash x := by
            simpa using hmem
          rcases hmem' with hmem' | hmem'
          · exact hkeysC y (List.mem_cons_of_mem _ hy) hmem'
          · apply hhx
            rw [← hmem']
            exact List.mem_map_of_mem textHash hy)
        hhxs
      rw [hfeed, hstep, hrec]
      dsimp only
      have hn1 : (d.text_cache ++ [(textHash x, x)]).length + xs.length -
          d.cache_size =
          d.text_cache.length + (x :: xs).length - d.cache_size := by
        simp only [List.length_append, List.length_cons, List.length_nil]
        omega
      rw [hn1, List.map_cons, List.append_assoc, List.singleton_append]

lemma collectUnique_zip_sublist {α : Type} :
    ∀ (l : List α) (flags : List Bool), (collectUnique (l.zip flags)).Sublist l
  | [], _ => by simp [collectUnique]
  | _ :: _, [] => by simp [collectUnique]
  | a :: l, b :: flags => by
    unfold collectUnique
    cases b with
    | false =>
      simpa [collectUnique] using
        List.Sublist.cons₂ a (collectUnique_zip_sublist l flags)
    | true =>
      simpa [collectUnique] using
        List.Sublist.cons a (collectUnique_zip_sublist l flags)

lemma countDiff_zip_eq_range :
    ∀ (l1 l2 : List Char), l1.length = l2.length →
    (l1.zip l2).countP (fun p => decide (p.1 ≠ p.2)) =
    (List.range l1.length).countP
      (fun i => decide (l1.getD i default ≠ l2.getD i default))
  | [], [], _ => rfl
  | [], _ :: _, h => by simp at h
  | _ :: _, [], h => by simp at h
  | a :: l1, b :: l2, h => by
    have h' : l1.length = l2.length := by simpa using h
    have ih := countDiff_zip_eq_range l1 l2 h'
    simp only [List.zip_cons_cons, List.countP_cons, List.length_cons,
      List.range_succ_eq_map, List.countP_map]
    have hzero : (decide ((a :: l1).getD 0 default ≠ (b :: l2).getD 0 default)
          = true) = (decide (a ≠ b) = true) := by
      simp
    have hsucc :
        (List.range l1.length).countP
          ((fun i => decide ((a :: l1).getD i default ≠
            (b :: l2).getD i default)) ∘ Nat.succ) =
        (List.range l1.length).countP
          (fun i => decide (l1.getD i default ≠ l2.getD i default)) := by
      apply List.countP_congr
      intro i _
      simp [List.getD_cons_succ]
    rw [hsucc, ← ih]
    simp

/-! The claim theorems. -/

/-- C2: every batch dedup call returns a subsequence of its input: kept
elements come from the input, in their original relative order, with their
identity unchanged, whatever verdicts the pool reports and even when the
pool fails. -/
theorem c2_batch_sublist :
    ∀ (Img : Type) (poolResults : List Img → Except Unit (List Bool))
      (images : List Img)
      (poolResultsT : List String → Except Unit (List Bool))
      (texts : List String),
      (deduplicate_images poolResults images).Sublist images ∧
      (deduplicate_texts poolResultsT texts).Sublist texts := by
  intro Img pr images prt texts
  constructor
  · cases h : pr images with
    | ok flags =>
      simpa [deduplicate_images, h] using collectUnique_zip_sublist images flags
    | error e =>
      simp [deduplicate_images, h]
  · cases h : prt texts with
    | ok flags =>
      simpa [deduplicate_texts, h] using collectUnique_zip_sublist texts flags
    | error e =>
      simp [deduplicate_texts, h]

/-- C4: when any step inside a batch call fails, the batch call swallows the
exception and returns the original unfiltered input list. -/
theorem c4_batch_fail_open :
    ∀ (Img : Type) (poolResults : List Img → Except Unit (List Bool))
      (images : List Img)
      (poolResultsT : List String → Except Unit (List Bool))
      (texts : List String),
      (∀ e : Unit, poolResults images = Except.error e →
        deduplicate_images poolResults images = images) ∧
      (∀ e : Unit, poolResultsT texts = Except.error e →
        deduplicate_texts poolResultsT texts = texts) := by
  intro Img pr images prt texts
  constructor
  · intro e h
    simp [deduplicate_images, h]
  · intro e h
    simp [deduplicate_texts, h]

/-- C4 witness: a pool that always fails makes both batch calls return their
input unchanged. -/
theorem c4_witness :
    deduplicate_images (fun _ => Except.error ()) [()] = [()] ∧
    deduplicate_texts (fun _ => Except.error ()) ["A"] = ["A"] :=
  ⟨(c4_batch_fail_open Unit (fun _ => Except.error ()) [()]
      (fun _ => Except.error ()) ["A"]).1 () rfl,
   (c4_batch_fail_open Unit (fun _ => Except.error ()) [()]
      (fun _ => Except.error ()) ["A"]).2 () rfl⟩

/-- C5: on two equal-length bitstrings of positive length,
calculate_image_similarity returns one minus the fraction of positions at
which the strings differ; on strings of different lengths it returns 0.0. -/
theorem c5_image_similarity_formula (hash1 hash2 : String) :
    (hash1.length = hash2.length → 0 < hash1.length →
      calculate_image_similarity hash1 hash2 = Except.ok (1 -
        (((List.range hash1.length).filter (fun i =>
          decide (hash1.data.getD i default ≠ hash2.data.getD i default))).length
            : ℚ) / (hash1.length : ℚ))) ∧
    (hash1.length ≠ hash2.length →
      calculate_image_similarity hash1 hash2 = Except.ok 0) := by
  constructor
  · intro heq hpos
    have hham : hammingDistance hash1 hash2 =
        ((List.range hash1.length).filter (fun i =>
          decide (hash1.data.getD i default ≠ hash2.data.getD i default))).length := by
      unfold hammingDistance
      rw [← List.countP_eq_length_filter, ← List.countP_eq_length_filter]
      exact countDiff_zip_eq_range hash1.data hash2.data heq
    unfold calculate_image_similarity
    rw [if_neg (by omega), if_neg (by omega), hham]
  · intro hne
    unfold calculate_image_similarity
    rw [if_pos hne]

/-- C5 witness: the formula evaluated on the pair 01 and 00, and the length
mismatch case on the pair 0 and 01. -/
theorem c5_witness :
    calculate_image_similarity "01" "00" = Except.ok (1 -
      (((List.range ("01" : String).length).filter (fun i =>
        decide (("01" : String).data.getD i default ≠
          ("00" : String).data.getD i default))).length : ℚ) /
      (("01" : String).length : ℚ)) ∧
    calculate_image_similarity "0" "01" = Except.ok 0 :=
  ⟨(c5_image_similarity_formula "01" "00").1 (by decide) (by decide),
   (c5_image_similarity_formula "0" "01").2 (by decide)⟩

/-- C6: raising the similarity threshold can only turn a duplicate verdict
into unique, never the reverse: with the lower threshold every duplicate
verdict of the higher threshold is kept, for both content kinds. -/
theorem c6_threshold_monotone :
    ∀ (Img : Type) (imgHash percHash : Img → String) (d : Deduplicator Img)
      (image : Img) (textSim : String → String → ℚ)
      (textHash : String → String) (text : String) (t t' : ℚ), t ≤ t' →
      ((is_duplicate_image imgHash percHash
          { d with similarity_threshold := t' } image).1 = true →
        (is_duplicate_image imgHash percHash
          { d with similarity_threshold := t } image).1 = true) ∧
      ((is_duplicate_text textSim textHash
          { d with similarity_threshold := t' } text).1 = true →
        (is_duplicate_text textSim textHash
          { d with similarity_threshold := t } text).1 = true) := by
  intro Img imgHash percHash d image textSim textHash text t t' hle
  constructor
  · intro h
    rw [is_duplicate_image_fst_true_iff] at h ⊢
    exact imageScan_mono t t' (imgHash image) d.image_cache hle h
  · intro h
    rw [is_duplicate_text_fst_true_iff, textScan_true_iff] at h ⊢
    obtain ⟨p, hp, hs⟩ := h
    exact ⟨p, hp, le_trans hle hs⟩

/-- C6 witness: a cached identical hash is a duplicate at threshold 3/4 and
stays a duplicate after lowering the threshold to 1/2. -/
theorem c6_witness :
    (is_duplicate_image (fun _ => "0") (fun _ => "0")
      { (⟨0, 1, [("0", ())], []⟩ : Deduplicator Unit) with
          similarity_threshold := (1 : ℚ)/2 } ()).1 = true :=
  (c6_threshold_monotone Unit (fun _ => "0") (fun _ => "0")
      (⟨0, 1, [("0", ())], []⟩ : Deduplicator Unit) () simEq idHash "A"
      ((1 : ℚ)/2) ((3 : ℚ)/4) (by norm_num)).1
    (by norm_num +decide [is_duplicate_image, process_image, imageScan,
      calculate_image_similarity, hammingDistance])

/-- C8: the code hands the whole single-item decision, cache scan and cache
mutation included, to the worker pool, so the verdict of the second of two
identical texts depends on the schedule: under the sequential schedule it is
a duplicate, under the schedule where both scans precede both insertions it
is unique. -/
theorem c8_schedule_dependence :
    (twoTextsSequential simEq idHash
        (⟨9/10, 10, [], []⟩ : Deduplicator Unit) "T" "T").2.1 = true ∧
    (twoTextsScansFirst simEq idHash
        (⟨9/10, 10, [], []⟩ : Deduplicator Unit) "T" "T").2.1 = false := by
  constructor <;>
    norm_num +decide [twoTextsSequential, twoTextsScansFirst,
      is_duplicate_text, process_text, textScan, textInsertPhase, odInsert,
      odPopFirst, simEq, idHash]

/-- C9: the perceptual hash is computed but never read: is_duplicate_image
agrees extensionally with the variant that skips it, and the verdict is a
function of the content hash value alone. -/
theorem c9_perceptual_hash_unused :
    (∀ (Img : Type) (imgHash percHash : Img → String) (d : Deduplicator Img)
      (image : Img),
      is_duplicate_image imgHash percHash d image =
        is_duplicate_image_skip_perceptual imgHash d image) ∧
    (∀ (Img : Type) (imgHash1 imgHash2 percHash1 percHash2 : Img → String)
      (d : Deduplicator Img) (im1 im2 : Img),
      imgHash1 im1 = imgHash2 im2 →
      (is_duplicate_image imgHash1 percHash1 d im1).1 =
        (is_duplicate_image imgHash2 percHash2 d im2).1) := by
  constructor
  · intro Img imgHash percHash d image
    rfl
  · intro Img imgHash1 imgHash2 percHash1 percHash2 d im1 im2 h
    rw [Bool.eq_iff_iff, is_duplicate_image_fst_true_iff,
      is_duplicate_image_fst_true_iff, h]

/-- C9 witness: two images with the same content hash but different
perceptual hash functions receive the same verdict. -/
theorem c9_witness :
    is_duplicate_image (fun _ => "1") (fun _ => "0")
        (⟨9/10, 1, [], []⟩ : Deduplicator Unit) () =
      is_duplicate_image_skip_perceptual (fun _ => "1")
        (⟨9/10, 1, [], []⟩ : Deduplicator Unit) () ∧
    (is_duplicate_image (fun _ => "1") (fun _ => "0")
        (⟨9/10, 1, [], []⟩ : Deduplicator Unit) ()).1 =
      (is_duplicate_image (fun _ => "1") (fun _ => "1")
        (⟨9/10, 1, [], []⟩ : Deduplicator Unit) ()).1 :=
  ⟨(c9_perceptual_hash_unused).1 Unit (fun _ => "1") (fun _ => "0")
      (⟨9/10, 1, [], []⟩ : Deduplicator Unit) (),
   (c9_perceptual_hash_unused).2 Unit (fun _ => "1") (fun _ => "1")
      (fun _ => "0") (fun _ => "1")
      (⟨9/10, 1, [], []⟩ : Deduplicator Unit) () () rfl⟩

/-- C10: with cache_size zero and empty caches, the eviction of the oldest
entry fails on the empty cache before any insertion, the per-item handler
swallows the error, every call reports not duplicate, and both caches stay
empty. -/
theorem c10_zero_capacity :
    ∀ (Img : Type) (imgHash percHash : Img → String)
      (textSim : String → String → ℚ) (textHash : String → String)
      (d : Deduplicator Img) (image : Img) (text : String),
      d.cache_size = 0 → d.image_cache = [] → d.text_cache = [] →
      process_image d image (imgHash image) = Except.error () ∧
      is_duplicate_image imgHash percHash d image = (false, d) ∧
      process_text textSim d text (textHash text) = Except.error () ∧
      is_duplicate_text textSim textHash d text = (false, d) := by
  intro Img imgHash percHash textSim textHash d image text hcap hic htc
  have hscan : imageScan d.similarity_threshold (imgHash image) d.image_cache =
      Except.ok false := by
    rw [hic]
    rfl
  have hpop : (if d.cache_size ≤ d.image_cache.length then
      odPopFirst d.image_cache else Except.ok d.image_cache) =
      Except.error () := by
    rw [if_pos (by rw [hcap]; omega), hic]
    rfl
  have hscanT : textScan textSim d.similarity_threshold text d.text_cache =
      false := by
    rw [htc]
    rfl
  have hpopT : (if d.cache_size ≤ d.text_cache.length then
      odPopFirst d.text_cache else Except.ok d.text_cache) =
      Except.error () := by
    rw [if_pos (by rw [hcap]; omega), htc]
    rfl
  refine ⟨?_, ?_, ?_, ?_⟩
  · simp [process_image, hscan, hpop]
  · simp [is_duplicate_image, process_image, hscan, hpop]
  · simp [process_text, hscanT, hpopT]
  · simp [is_duplicate_text, process_text, hscanT, hpopT]

/-- C10 witness: the zero-capacity deduplicator on a concrete image and a
concrete text. -/
theorem c10_witness :
    process_image (⟨9/10, 0, [], []⟩ : Deduplicator Unit) ()
        ((fun _ => "0101") ()) = Except.error () ∧
    is_duplicate_image (fun _ => "0101") (fun _ => "1111")
        (⟨9/10, 0, [], []⟩ : Deduplicator Unit) () =
      (false, (⟨9/10, 0, [], []⟩ : Deduplicator Unit)) ∧
    process_text simEq (⟨9/10, 0, [], []⟩ : Deduplicator Unit) "A"
        (idHash "A") = Except.error () ∧
    is_duplicate_text simEq idHash (⟨9/10, 0, [], []⟩ : Deduplicator Unit)
        "A" = (false, (⟨9/10, 0, [], []⟩ : Deduplicator Unit)) :=
  c10_zero_capacity Unit (fun _ => "0101") (fun _ => "1111") simEq idHash
    (⟨9/10, 0, [], []⟩ : Deduplicator Unit) () "A" rfl rfl rfl

/-- C1: is_duplicate_image reports a duplicate exactly when some entry
already in the image cache has similarity with the candidate content hash at
or above the threshold; a duplicate leaves the state unchanged, and a unique
candidate has its hash and payload inserted after the FIFO eviction that
applies at capacity. -/
theorem c1_single_image_decision {Img : Type} (imgHash percHash : Img → String)
    (d : Deduplicator Img) (image : Img)
    (hlen : (imgHash image).length ≠ 0) (hcap : 0 < d.cache_size) :
    ((is_duplicate_image imgHash percHash d image).1 = true ↔
      ∃ p ∈ d.image_cache, ∃ s : ℚ,
        calculate_image_similarity (imgHash image) p.1 = Except.ok s ∧
        d.similarity_threshold ≤ s) ∧
    ((is_duplicate_image imgHash percHash d image).1 = true →
      (is_duplicate_image imgHash percHash d image).2 = d) ∧
    ((is_duplicate_image imgHash percHash d image).1 = false →
      (is_duplicate_image imgHash percHash d image).2 =
        { d with image_cache :=
                   odInsert
                     (if d.cache_size ≤ d.image_cache.length then
                       d.image_cache.tail else d.image_cache)
                     (imgHash image) image }) := by
  refine ⟨?_, ?_, ?_⟩
  · rw [is_duplicate_image_fst_true_iff]
    exact imageScan_true_iff d.similarity_threshold (imgHash image)
      d.image_cache hlen
  · intro htrue
    have hscan := (is_duplicate_image_fst_true_iff imgHash percHash d
      image).mp htrue
    simp [is_duplicate_image, process_image, hscan]
  · intro hfalse
    obtain ⟨b, hb⟩ := imageScan_isOk d.similarity_threshold (imgHash image)
      d.image_cache hlen
    have hbf : b = false := by
      cases b
      · rfl
      · have := (is_duplicate_image_fst_true_iff imgHash percHash d
          image).mpr hb
        rw [hfalse] at this
        simp at this
    subst hbf
    have hpop : (if d.cache_size ≤ d.image_cache.length then
        odPopFirst d.image_cache else Except.ok d.image_cache) =
        Except.ok (if d.cache_size ≤ d.image_cache.length then
          d.image_cache.tail else d.image_cache) := by
      by_cases hful : d.cache_size ≤ d.image_cache.length
      · rw [if_pos hful, if_pos hful]
        have hnil : d.image_cache ≠ [] := by
          intro h0
          rw [h0] at hful
          simp at hful
          omega
        cases hcc : d.image_cache with
        | nil => exact absurd hcc hnil
        | cons q rest => rfl
      · rw [if_neg hful, if_neg hful]
    simp [is_duplicate_image, process_image, hb, hpop]

/-- C1 witness: a cached identical hash is reported duplicate with the state
unchanged, and on an empty cache the candidate is inserted and reported
unique. -/
theorem c1_witness :
    (((is_duplicate_image (fun _ => "1") (fun _ => "")
        (⟨9/10, 1, [("1", ())], []⟩ : Deduplicator Unit) ()).1 = true ↔
      ∃ p ∈ (⟨9/10, 1, [("1", ())], []⟩ : Deduplicator Unit).image_cache,
        ∃ s : ℚ, calculate_image_similarity ((fun _ => "1") ()) p.1 =
          Except.ok s ∧
          (⟨9/10, 1, [("1", ())], []⟩ : Deduplicator Unit).similarity_threshold
            ≤ s) ∧
    ((is_duplicate_image (fun _ => "1") (fun _ => "")
        (⟨9/10, 1, [("1", ())], []⟩ : Deduplicator Unit) ()).1 = true →
      (is_duplicate_image (fun _ => "1") (fun _ => "")
        (⟨9/10, 1, [("1", ())], []⟩ : Deduplicator Unit) ()).2 =
      (⟨9/10, 1, [("1", ())], []⟩ : Deduplicator Unit)) ∧
    ((is_duplicate_image (fun _ => "1") (fun _ => "")
        (⟨9/10, 1, [("1", ())], []⟩ : Deduplicator Unit) ()).1 = false →
      (is_duplicate_image (fun _ => "1") (fun _ => "")
        (⟨9/10, 1, [("1", ())], []⟩ : Deduplicator Unit) ()).2 =
      { (⟨9/10, 1, [("1", ())], []⟩ : Deduplicator Unit) with
          image_cache :=
            odInsert
              (if (⟨9/10, 1, [("1", ())], []⟩ : Deduplicator Unit).cache_size ≤
                  (⟨9/10, 1, [("1", ())], []⟩ :
                    Deduplicator Unit).image_cache.length then
                (⟨9/10, 1, [("1", ())], []⟩ :
                  Deduplicator Unit).image_cache.tail
              else (⟨9/10, 1, [("1", ())], []⟩ :
                Deduplicator Unit).image_cache)
              ((fun _ => "1") ()) () })) :=
  c1_single_image_decision (fun _ => "1") (fun _ => "")
    (⟨9/10, 1, [("1", ())], []⟩ : Deduplicator Unit) () (by decide)
    (by decide)

/-- C3: under any sequence of dedup operations with positive capacity the
per-kind caches never exceed cache_size; an insertion at capacity evicts
exactly the oldest entry and appends the new one, for either kind; and
feeding cache_size plus one mutually dissimilar texts into an empty
deduplicator leaves exactly cache_size entries, with the first item evicted
and judged unique when re-presented. -/
theorem c3_fifo_bounded_cache :
    (∀ (Img : Type) (d : Deduplicator Img) (ops : List (DedupOp Img)),
      0 < d.cache_size →
      d.image_cache.length ≤ d.cache_size →
      d.text_cache.length ≤ d.cache_size →
      (runOps d ops).image_cache.length ≤ d.cache_size ∧
      (runOps d ops).text_cache.length ≤ d.cache_size) ∧
    (∀ (Img : Type) (imgHash percHash : Img → String) (d : Deduplicator Img)
      (image : Img),
      (imgHash image).length ≠ 0 → d.similarity_threshold ≤ 1 →
      0 < d.cache_size → d.image_cache.length = d.cache_size →
      (is_duplicate_image imgHash percHash d image).1 = false →
      (is_duplicate_image imgHash percHash d image).2.image_cache =
        d.image_cache.tail ++ [(imgHash image, image)]) ∧
    (∀ (Img : Type) (textSim : String → String → ℚ)
      (textHash : String → String) (d : Deduplicator Img) (text : String),
      0 < d.cache_size → d.text_cache.length = d.cache_size →
      textHash text ∉ d.text_cache.tail.map Prod.fst →
      (is_duplicate_text textSim textHash d text).1 = false →
      (is_duplicate_text textSim textHash d text).2.text_cache =
        d.text_cache.tail ++ [(textHash text, text)]) ∧
    (∀ (Img : Type) (textSim : String → String → ℚ)
      (textHash : String → String) (t : ℚ) (c : Nat) (a : String)
      (rest : List String),
      0 < c → rest.length = c →
      (a :: rest).Pairwise (fun x y => textSim x y < t ∧ textSim y x < t) →
      ((a :: rest).map textHash).Nodup →
      (feedTexts textSim textHash (⟨t, c, [], []⟩ : Deduplicator Img)
          (a :: rest)).text_cache.length = c ∧
      (is_duplicate_text textSim textHash
          (feedTexts textSim textHash (⟨t, c, [], []⟩ : Deduplicator Img)
            (a :: rest)) a).1 = false) := by
  refine ⟨?_, ?_, ?_, ?_⟩
  · intro Img d ops hcap h1 h2
    exact runOps_bound ops d hcap h1 h2
  · intro Img imgHash percHash d image hlen ht1 hcap hfull hverdict
    obtain ⟨b, hb⟩ := imageScan_isOk d.similarity_threshold (imgHash image)
      d.image_cache hlen
    have hbf : b = false := by
      cases b
      · rfl
      · have := (is_duplicate_image_fst_true_iff imgHash percHash d
          image).mpr hb
        rw [hverdict] at this
        simp at this
    subst hbf
    have hfresh : ∀ p ∈ d.image_cache, p.1 ≠ imgHash image := by
      intro p hp he
      have hsim : calculate_image_similarity (imgHash image) p.1 =
          Except.ok 1 := by
        rw [he]
        exact calculate_image_similarity_self _ hlen
      have htrue : imageScan d.similarity_threshold (imgHash image)
          d.image_cache = Except.ok true :=
        (imageScan_true_iff _ _ _ hlen).mpr ⟨p, hp, 1, hsim, ht1⟩
      rw [htrue] at hb
      simp at hb
    have hnil : d.image_cache ≠ [] := by
      intro h0
      rw [h0] at hfull
      simp at hfull
      omega
    have hpop : (if d.cache_size ≤ d.image_cache.length then
        odPopFirst d.image_cache else Except.ok d.image_cache) =
        Except.ok d.image_cache.tail := by
      rw [if_pos (le_of_eq hfull.symm)]
      cases hcc : d.image_cache with
      | nil => exact absurd hcc hnil
      | cons q rest => rfl
    have hins : odInsert d.image_cache.tail (imgHash image) image =
        d.image_cache.tail ++ [(imgHash image, image)] :=
      odInsert_of_not_mem _ _ _
        (fun p hp => hfresh p (List.mem_of_mem_tail hp))
    simp [is_duplicate_image, process_image, hb, hpop, hins]
  · intro Img textSim textHash d text hcap hfull hfreshtail hverdict
    have hscan : textScan textSim d.similarity_threshold text d.text_cache =
        false := by
      cases hsc : textScan textSim d.similarity_threshold text d.text_cache with
      | false => rfl
      | true =>
        have := (is_duplicate_text_fst_true_iff textSim textHash d
          text).mpr hsc
        rw [hverdict] at this
        simp at this
    have hnil : d.text_cache ≠ [] := by
      intro h0
      rw [h0] at hfull
      simp at hfull
      omega
    have hpop : (if d.cache_size ≤ d.text_cache.length then
        odPopFirst d.text_cache else Except.ok d.text_cache) =
        Except.ok d.text_cache.tail := by
      rw [if_pos (le_of_eq hfull.symm)]
      cases hcc : d.text_cache with
      | nil => exact absurd hcc hnil
      | cons q rest => rfl
    have hins : odInsert d.text_cache.tail (textHash text) text =
        d.text_cache.tail ++ [(textHash text, text)] :=
      odInsert_of_not_mem _ _ _
        (fun p hp he => hfreshtail (List.mem_map.mpr ⟨p, hp, he⟩))
    simp [is_duplicate_text, process_text, hscan, hpop, hins]
  · intro Img textSim textHash t c a rest hc hlen hpair hnodup
    have hspec := feedTexts_spec textSim textHash (a :: rest)
      (⟨t, c, [], []⟩ : Deduplicator Img) hc (by simp)
      (by intro x hx p hp; simp at hp)
      (hpair.imp (fun hab => hab.2))
      (by intro x hx hmem; simp at hmem)
      hnodup
    have hcache : (feedTexts textSim textHash
        (⟨t, c, [], []⟩ : Deduplicator Img) (a :: rest)).text_cache =
        rest.map (fun y => (textHash y, y)) := by
      rw [hspec]
      dsimp only
      have hct : ([] : List (String × String)).length + (a :: rest).length - c
          = 1 := by
        simp [hlen]
      rw [hct]
      simp
    have hth : (feedTexts textSim textHash
        (⟨t, c, [], []⟩ : Deduplicator Img) (a :: rest)).similarity_threshold
        = t := by
      rw [hspec]
    constructor
    · rw [hcache]
      simp [hlen]
    · cases hv : (is_duplicate_text textSim textHash
        (feedTexts textSim textHash (⟨t, c, [], []⟩ : Deduplicator Img)
          (a :: rest)) a).1 with
      | false => rfl
      | true =>
        exfalso
        have hsc := (is_duplicate_text_fst_true_iff textSim textHash _ a).mp hv
        rw [textScan_true_iff, hcache, hth] at hsc
        obtain ⟨p, hp, hle⟩ := hsc
        obtain ⟨y, hy, hpy⟩ := List.mem_map.mp hp
        have hlt : textSim a y < t := ((List.pairwise_cons.mp hpair).1 y hy).1
        rw [← hpy] at hle
        exact absurd hle (not_le.mpr hlt)

/-- C3 witness: the bound after one operation, both eviction shapes with
capacity one, and the overflow scenario with capacity one on the texts A
then B. -/
theorem c3_witness :
    ((runOps (⟨9/10, 1, [], []⟩ : Deduplicator Unit)
        [DedupOp.textOp simEq idHash "A"]).image_cache.length ≤ 1 ∧
     (runOps (⟨9/10, 1, [], []⟩ : Deduplicator Unit)
        [DedupOp.textOp simEq idHash "A"]).text_cache.length ≤ 1) ∧
    ((is_duplicate_image (fun _ => "0") (fun _ => "")
        (⟨1/2, 1, [("1", ())], []⟩ : Deduplicator Unit) ()).2.image_cache =
      [("1", ())].tail ++ [("0", ())]) ∧
    ((is_duplicate_text simEq idHash
        (⟨9/10, 1, [], [("B", "B")]⟩ : Deduplicator Unit) "A").2.text_cache =
      [("B", "B")].tail ++ [("A", "A")]) ∧
    ((feedTexts simEq idHash (⟨9/10, 1, [], []⟩ : Deduplicator Unit)
        ["A", "B"]).text_cache.length = 1 ∧
     (is_duplicate_text simEq idHash
        (feedTexts simEq idHash (⟨9/10, 1, [], []⟩ : Deduplicator Unit)
          ["A", "B"]) "A").1 = false) :=
  ⟨c3_fifo_bounded_cache.1 Unit (⟨9/10, 1, [], []⟩ : Deduplicator Unit)
      [DedupOp.textOp simEq idHash "A"] (by decide) (by decide) (by decide),
   c3_fifo_bounded_cache.2.1 Unit (fun _ => "0") (fun _ => "")
      (⟨1/2, 1, [("1", ())], []⟩ : Deduplicator Unit) () (by decide)
      (by norm_num) (by decide) (by decide)
      (by norm_num +decide [is_duplicate_image, process_image, imageScan,
        calculate_image_similarity, hammingDistance, odInsert, odPopFirst,
        show ("0" : String).length = 1 from rfl,
        show ("1" : String).length = 1 from rfl]),
   c3_fifo_bounded_cache.2.2.1 Unit simEq idHash
      (⟨9/10, 1, [], [("B", "B")]⟩ : Deduplicator Unit) "A" (by decide)
      (by decide) (by simp)
      (by norm_num +decide [is_duplicate_text, process_text, textScan,
        simEq, idHash, odInsert, odPopFirst]),
   c3_fifo_bounded_cache.2.2.2 Unit simEq idHash (9/10 : ℚ) 1 "A" ["B"]
      (by decide) (by decide)
      (by norm_num +decide [List.pairwise_cons, simEq])
      (by simp [idHash])⟩

/-- C7 counterexample: with cache_size 2, after presenting the mutually
dissimilar snippets A, B, C and re-presenting A, the verdict for A is indeed
unique, but the text cache is [(C, C), (A, A)]: it has only two entries and
does not hold B, so it is not the claimed three element collection of B, C
and A. -/
theorem c7_counterexample :
    (is_duplicate_text simEq idHash
        (feedTexts simEq idHash (⟨9/10, 2, [], []⟩ : Deduplicator Unit)
          ["A", "B", "C"]) "A").1 = false ∧
    (is_duplicate_text simEq idHash
        (feedTexts simEq idHash (⟨9/10, 2, [], []⟩ : Deduplicator Unit)
          ["A", "B", "C"]) "A").2.text_cache = [("C", "C"), ("A", "A")] ∧
    ("B", "B") ∉ (is_duplicate_text simEq idHash
        (feedTexts simEq idHash (⟨9/10, 2, [], []⟩ : Deduplicator Unit)
          ["A", "B", "C"]) "A").2.text_cache := by
  refine ⟨?_, ?_, ?_⟩ <;>
    norm_num +decide [feedTexts, is_duplicate_text, process_text, textScan,
      odInsert, odPopFirst, simEq, idHash]

/-- C7 amended: with cache_size 2, presenting three mutually dissimilar text
snippets A, B, C in order and then re-presenting A yields the verdict unique
for the re-presented A, A having been evicted when C was inserted; afterwards
the text cache holds C and A, B having been evicted in turn when A was
re-inserted. -/
theorem c7_cache_overflow_amended {Img : Type}
    (textSim : String → String → ℚ) (textHash : String → String) (t : ℚ)
    (A B C : String)
    (hpair : [A, B, C].Pairwise (fun x y => textSim x y < t ∧ textSim y x < t))
    (hnodup : ([A, B, C].map textHash).Nodup) :
    (is_duplicate_text textSim textHash
        (feedTexts textSim textHash (⟨t, 2, [], []⟩ : Deduplicator Img)
          [A, B, C]) A).1 = false ∧
    (is_duplicate_text textSim textHash
        (feedTexts textSim textHash (⟨t, 2, [], []⟩ : Deduplicator Img)
          [A, B, C]) A).2.text_cache =
      [(textHash C, C), (textHash A, A)] := by
  have hspec := feedTexts_spec textSim textHash [A, B, C]
    (⟨t, 2, [], []⟩ : Deduplicator Img) (by norm_num) (by simp)
    (by intro x hx p hp; simp at hp)
    (hpair.imp (fun hab => hab.2))
    (by intro x hx hmem; simp at hmem)
    hnodup
  have hfed : feedTexts textSim textHash (⟨t, 2, [], []⟩ : Deduplicator Img)
      [A, B, C] =
      (⟨t, 2, [], [(textHash B, B), (textHash C, C)]⟩ : Deduplicator Img) := by
    rw [hspec]
    dsimp only
    norm_num
  have hAB : textSim A B < t ∧ textSim B A < t :=
    (List.pairwise_cons.mp hpair).1 B (by simp)
  have hAC : textSim A C < t ∧ textSim C A < t :=
    (List.pairwise_cons.mp hpair).1 C (by simp)
  have hACne : textHash C ≠ textHash A := by
    have hni : textHash A ∉ [textHash B, textHash C] :=
      (List.nodup_cons.mp (by simpa using hnodup)).1
    intro he
    apply hni
    rw [← he]
    simp
  have hscan : textScan textSim t A [(textHash B, B), (textHash C, C)] =
      false := by
    apply textScan_eq_false
    intro p hp
    simp only [List.mem_cons, List.not_mem_nil, or_false] at hp
    rcases hp with hp | hp
    · rw [hp]
      exact hAB.1
    · rw [hp]
      exact hAC.1
  have hins : odInsert [(textHash C, C)] (textHash A) A =
      [(textHash C, C), (textHash A, A)] := by
    have := odInsert_of_not_mem [(textHash C, C)] (textHash A) A
      (by
        intro p hp
        simp only [List.mem_singleton] at hp
        rw [hp]
        exact hACne)
    simpa using this
  rw [hfed]
  constructor
  · simp [is_duplicate_text, process_text, hscan, odPopFirst]
  · simp [is_duplicate_text, process_text, hscan, odPopFirst, hins]

/-- C7 witness: the amended cache overflow scenario on the concrete snippets
A, B and C with a similarity that is 1 on equal strings and 0 otherwise. -/
theorem c7_witness :
    (is_duplicate_text simEq idHash
        (feedTexts simEq idHash (⟨(9 : ℚ)/10, 2, [], []⟩ : Deduplicator Unit)
          ["A", "B", "C"]) "A").1 = false ∧
    (is_duplicate_text simEq idHash
        (feedTexts simEq idHash (⟨(9 : ℚ)/10, 2, [], []⟩ : Deduplicator Unit)
          ["A", "B", "C"]) "A").2.text_cache =
      [(idHash "C", "C"), (idHash "A", "A")] :=
  c7_cache_overflow_amended simEq idHash ((9 : ℚ)/10) "A" "B" "C"
    (by norm_num +decide [List.pairwise_cons, simEq])
    (by simp [idHash])

end Dedup
